import Mathlib

/-!
Verification of the core logic of a small point-of-sale / public-catalog web
application (product inventory with an offline-first localStorage mirror and
pending-change queue, a barcode keystroke classifier, a public-catalog cart,
order validation, an order-fulfillment sequence, and per-day sales
reporting).

The JavaScript source is shallowly embedded: each relevant function is
translated into an executable Lean definition over explicit state
(local mirror, remote store, scanner state, cart).  Remote-call failures and
server-assigned identifiers are passed in as parameters.  JS numbers used as
money are modelled as integers (every claim involves integral amounts only),
stock quantities as integers, and timestamps as ISO-8601 strings compared
lexicographically on their character lists (which coincides with
chronological order for equal-format ISO strings, and with how the remote
store compares them).  String trimming and date extraction are given
kernel-executable definitions on character lists mirroring the JS
`String.prototype.trim` and `split('T')[0]`.
-/

namespace AuraStore

/-! ## String utilities (kernel-executable models of the JS string operations) -/

/-- Characters-level trim: drop leading and trailing whitespace
(model of JS `String.prototype.trim`). -/
def trimChars (l : List Char) : List Char :=
  (((l.dropWhile Char.isWhitespace).reverse).dropWhile Char.isWhitespace).reverse

/-- Model of JS `s.trim()`. -/
def jsTrim (s : String) : String := ⟨trimChars s.data⟩

/-- Model of JS `s.split('T')[0]`: the prefix of the string before the first
`T` (the date part of an ISO timestamp). -/
def datePart (s : String) : String := ⟨s.data.takeWhile (fun c => c ≠ 'T')⟩

/-- Boolean lexicographic comparison of strings via their character lists,
modelling both JS string comparison and the remote store's ordering of ISO
timestamps. -/
def strLeB (a b : String) : Bool := decide (a.data ≤ b.data)

/-! ## Generic list helpers shared by the embedded operations -/

/-- Insert into a descending-by-key list, keeping it descending
(helper for `sortDescBy`). -/
def insertDescBy {α : Type} (key : α → String) (a : α) : List α → List α
  | [] => [a]
  | b :: l => if (key a).data < (key b).data then b :: insertDescBy key a l else a :: b :: l

/-- Sort a list descending by a string key: model of the remote store's
`order(column, descending)` and of the JS date-descending sort comparator. -/
def sortDescBy {α : Type} (key : α → String) : List α → List α
  | [] => []
  | a :: l => insertDescBy key a (sortDescBy key l)

/-- Update the first element satisfying `p` (model of the JS
`findIndex` + assignment idiom and of mutating the object returned by
`find`). -/
def updateFirstBy {α : Type} (p : α → Bool) (f : α → α) : List α → List α
  | [] => []
  | a :: l => if p a then f a :: l else a :: updateFirstBy p f l

/-! ## Data model -/

/-- Product record (table `productos` and its localStorage mirror). -/
structure Producto where
  id : String
  codigo_barras : String
  nombre : String
  precio : Int
  stock : Int
  imagen_url : Option String
  created_at : String
deriving DecidableEq

/-- Line item of an order or sale: the `{id, nombre, cantidad, precio}`
snapshot stored in the JSON `productos` column. -/
structure ItemPedido where
  id : String
  nombre : String
  cantidad : Int
  precio : Int
deriving DecidableEq

/-- Order data as assembled by the client before insertion
(`PedidosHelper.formatearPedido` output shape). -/
structure Pedido where
  cliente : String
  productos : List ItemPedido
  total : Int
  metodo_pago : String
  tiempo_llegada : String
deriving DecidableEq

/-- Row of the remote `pedidos` table. -/
structure PedidoRow where
  id : String
  created_at : String
  cliente : String
  productos : List ItemPedido
  total : Int
  metodo_pago : String
  tiempo_llegada : String
  estado : String
deriving DecidableEq

/-- Input to `Database.createVenta`. -/
structure VentaInput where
  pedido_id : Option String
  total : Int
  metodo_pago : String
  productos : List ItemPedido
deriving DecidableEq

/-- Row of the remote `ventas_diarias` table. -/
structure VentaRow where
  id : String
  created_at : String
  pedido_id : Option String
  total : Int
  metodo_pago : String
  productos : List ItemPedido
deriving DecidableEq

/-- Payload of a pending change, keyed by the operation it was saved with:
`savePendingChange('insert', nuevoProducto)`,
`savePendingChange('update', {id, stock})`, `savePendingChange('delete', {id})`. -/
inductive ChangeData where
  | ins (producto : Producto)
  | upd (id : String) (stock : Int)
  | del (id : String)
deriving DecidableEq

/-- Entry of the pending-change queue:
`{operation, data, timestamp}` as pushed by `Database.savePendingChange`. -/
structure PendingChange where
  operation : String
  data : ChangeData
  timestamp : Nat
deriving DecidableEq

/-- The browser-local mirror: cached product list and pending-change queue
(localStorage under `PRODUCTOS_KEY` and `PENDING_CHANGES_KEY`). -/
structure LocalStore where
  productos : List Producto
  pending : List PendingChange
deriving DecidableEq

/-- The remote store's three tables. -/
structure RemoteDB where
  productos : List Producto
  pedidos : List PedidoRow
  ventas : List VentaRow
deriving DecidableEq

/-! ## PedidosHelper (src/js/pedidos.js) -/

/-- Result shape of `PedidosHelper.validarPedido`:
`{ valid: boolean, error?: string }`. -/
structure Validacion where
  valid : Bool
  error : Option String
deriving DecidableEq

/-- Embedding of `PedidosHelper.validarPedido`.  The first JS check
`!pedido.cliente || pedido.cliente.trim() === ''` is equivalent to the
trimmed name being empty; the second check `pedido.cliente.length < 2` is on
the raw, untrimmed string.  Absent `tiempo_llegada` / `metodo_pago`
(JS falsy) are modelled as the empty string. -/
def validarPedido (pedido : Pedido) : Validacion :=
  if jsTrim pedido.cliente = "" then
    ⟨false, some "El nombre del cliente es requerido"⟩
  else if pedido.cliente.length < 2 then
    ⟨false, some "El nombre debe tener al menos 2 caracteres"⟩
  else if pedido.productos.length = 0 then
    ⟨false, some "El pedido debe contener al menos un producto"⟩
  else if pedido.tiempo_llegada = "" then
    ⟨false, some "Debe seleccionar un tiempo de llegada"⟩
  else if pedido.metodo_pago = "" then
    ⟨false, some "Debe seleccionar un método de pago"⟩
  else if pedido.total ≤ 0 then
    ⟨false, some "El total del pedido debe ser mayor a cero"⟩
  else ⟨true, none⟩

/-! ## Catalogo (src/js/cliente.js) product loading -/

/-- Embedding of `CatalogoCliente.cargarProductos`: the displayed list is
`todosProductos.filter(p => p.stock > 0)`. -/
def cargarProductos (todosProductos : List Producto) : List Producto :=
  todosProductos.filter (fun p => 0 < p.stock)

/-- Embedding of `POS.cargarProductos` (POS inventory view): the product
list is taken from the database unfiltered. -/
def posCargarProductos (todosProductos : List Producto) : List Producto :=
  todosProductos

/-! ## Database offline mirror helpers (src/js/barcode-scanner.js) -/

/-- Embedding of `Database.savePendingChange`: append one entry to the
pending-change queue. -/
def savePendingChange (operation : String) (data : ChangeData) (now : Nat)
    (st : LocalStore) : LocalStore :=
  { st with pending := st.pending ++ [⟨operation, data, now⟩] }

/-- Embedding of `Database.updateInLocalStorage` specialised to the stock
field (the only use on the paths under study): `findIndex` on the id and
merge the update into that entry. -/
def updateInLocalStorage (id : String) (stock : Int) (st : LocalStore) : LocalStore :=
  { st with productos :=
      updateFirstBy (fun p => p.id = id) (fun p => { p with stock := stock }) st.productos }

/-! ## Database CRUD operations

Every operation returns its (possibly thrown) result together with the
updated local mirror and remote store, mirroring the JS methods, which may
mutate `localStorage` and the remote tables before throwing.  `remoteFail`
stands for the remote call failing (network or server error); `serverId`
and `nowIso` stand for the server-assigned row id and the
`new Date().toISOString()` timestamp. -/

/-- Product payload built at the top of `Database.addProducto`
(before any id is assigned). -/
structure ProductoInput where
  codigo_barras : String
  nombre : String
  precio : Int
  stock : Int
  imagen_url : Option String
deriving DecidableEq

/-- Embedding of `Database.addProducto`. -/
def addProducto (isOnline remoteFail : Bool) (serverId : String) (now : Nat)
    (nowIso : String) (input : ProductoInput) (loc : LocalStore) (remote : RemoteDB) :
    Except String Producto × LocalStore × RemoteDB :=
  let nuevoProducto : Producto :=
    { id := "", codigo_barras := input.codigo_barras, nombre := input.nombre,
      precio := input.precio, stock := input.stock,
      imagen_url := input.imagen_url, created_at := nowIso }
  if isOnline then
    if remoteFail then
      (.error "Error al agregar producto",
       savePendingChange "insert" (.ins nuevoProducto) now loc, remote)
    else
      let data := { nuevoProducto with id := serverId }
      (.ok data,
       { loc with productos := loc.productos ++ [data] },
       { remote with productos := remote.productos ++ [data] })
  else
    let tempProducto := { nuevoProducto with id := "temp_" ++ toString now }
    let loc1 := { loc with productos := loc.productos ++ [tempProducto] }
    (.ok tempProducto,
     savePendingChange "insert" (.ins tempProducto) now loc1, remote)

/-- Embedding of `Database.updateStock`. -/
def updateStock (isOnline remoteFail : Bool) (now : Nat) (id : String)
    (nuevaCantidad : Int) (loc : LocalStore) (remote : RemoteDB) :
    Except String (Option Producto) × LocalStore × RemoteDB :=
  if isOnline then
    if remoteFail then
      (.error "Error al actualizar stock",
       savePendingChange "update" (.upd id nuevaCantidad) now loc, remote)
    else
      let prods := remote.productos.map
        (fun p => if p.id = id then { p with stock := nuevaCantidad } else p)
      let remote1 := { remote with productos := prods }
      (.ok (remote1.productos.find? (fun p => p.id = id)),
       updateInLocalStorage id nuevaCantidad loc, remote1)
  else
    let loc1 := savePendingChange "update" (.upd id nuevaCantidad) now
      (updateInLocalStorage id nuevaCantidad loc)
    (.ok (loc1.productos.find? (fun p => p.id = id)), loc1, remote)

/-- Embedding of `Database.createPedido`. -/
def createPedido (isOnline remoteFail : Bool) (serverId nowIso : String)
    (pedido : Pedido) (loc : LocalStore) (remote : RemoteDB) :
    Except String PedidoRow × LocalStore × RemoteDB :=
  let nuevoPedido : PedidoRow :=
    { id := "", created_at := nowIso, cliente := pedido.cliente,
      productos := pedido.productos, total := pedido.total,
      metodo_pago := pedido.metodo_pago, tiempo_llegada := pedido.tiempo_llegada,
      estado := "pendiente" }
  if isOnline then
    if remoteFail then (.error "Error al crear pedido", loc, remote)
    else
      let row := { nuevoPedido with id := serverId }
      (.ok row, loc, { remote with pedidos := remote.pedidos ++ [row] })
  else
    (.error "No se pueden crear pedidos en modo offline", loc, remote)

/-- Embedding of `Database.createVenta`. -/
def createVenta (isOnline remoteFail : Bool) (serverId nowIso : String)
    (venta : VentaInput) (loc : LocalStore) (remote : RemoteDB) :
    Except String VentaRow × LocalStore × RemoteDB :=
  if isOnline then
    if remoteFail then (.error "Error al crear registro de venta", loc, remote)
    else
      let row : VentaRow :=
        { id := serverId, created_at := nowIso, pedido_id := venta.pedido_id,
          total := venta.total, metodo_pago := venta.metodo_pago,
          productos := venta.productos }
      (.ok row, loc, { remote with ventas := remote.ventas ++ [row] })
  else
    (.error "No se pueden registrar ventas en modo offline", loc, remote)

/-- Embedding of `Database.updatePedidoEstado`: update the `estado` column
of the matching row and return the updated row. -/
def updatePedidoEstado (isOnline remoteFail : Bool) (id estado : String)
    (remote : RemoteDB) : Except String (Option PedidoRow) × RemoteDB :=
  if isOnline then
    if remoteFail then (.error "Error al actualizar estado del pedido", remote)
    else
      let peds := remote.pedidos.map
        (fun p => if p.id = id then { p with estado := estado } else p)
      let remote1 := { remote with pedidos := peds }
      (.ok (remote1.pedidos.find? (fun p => p.id = id)), remote1)
  else
    (.error "No se puede actualizar pedido en modo offline", remote)

/-- Embedding of `Database.getPedidosPendientes`: remote query filtered on
`estado = 'pendiente'` ordered by creation time descending; the `catch`
branch and the offline branch both return the empty list. -/
def remoteQueryPendientes (remoteFail : Bool) (pedidos : List PedidoRow) :
    Except String (List PedidoRow) :=
  if remoteFail then .error "remote error"
  else .ok (sortDescBy (fun p => p.created_at)
    (pedidos.filter (fun p => p.estado = "pendiente")))

/-- Embedding of `Database.getPedidosPendientes` (the try/catch wrapper). -/
def getPedidosPendientes (isOnline remoteFail : Bool) (pedidos : List PedidoRow) :
    List PedidoRow :=
  if isOnline then
    match remoteQueryPendientes remoteFail pedidos with
    | .ok data => data
    | .error _ => []
  else []

/-! ## Pending-queue replay (`Database.syncPendingChanges`) -/

/-- Replay of one pending change against the remote store, switching on the
recorded operation kind exactly as the JS `switch (change.operation)` does.
A mismatched operation/payload pair never arises from the three
`savePendingChange` call sites; it is modelled as a no-op, matching the JS
switch falling through. -/
def applyChange (remote : RemoteDB) (change : PendingChange) : RemoteDB :=
  if change.operation = "insert" then
    match change.data with
    | .ins p => { remote with productos := remote.productos ++ [p] }
    | _ => remote
  else if change.operation = "update" then
    match change.data with
    | .upd id stock =>
      let prods := remote.productos.map
        (fun p => if p.id = id then { p with stock := stock } else p)
      { remote with productos := prods }
    | _ => remote
  else if change.operation = "delete" then
    match change.data with
    | .del id => { remote with productos := remote.productos.filter (fun p => p.id ≠ id) }
    | _ => remote
  else remote

/-- Embedding of `Database.syncPendingChanges`: iterate the queue in order;
a failed replay (modelled by `fails i` for the i-th entry) is logged and
skipped; afterwards the queue is removed from localStorage wholesale. -/
def syncPendingChanges (isOnline : Bool) (fails : Nat → Bool)
    (loc : LocalStore) (remote : RemoteDB) : LocalStore × RemoteDB :=
  if isOnline then
    if loc.pending.length = 0 then (loc, remote)
    else
      let remote1 := loc.pending.enum.foldl
        (fun r ic => if fails ic.1 then r else applyChange r ic.2) remote
      ({ loc with pending := [] }, remote1)
  else (loc, remote)

/-! ## Reporting (`Database.getVentasPorDia`) -/

/-- One per-day group of the report:
`{fecha, total, cantidad, ventas}`. -/
structure DiaVentas where
  fecha : String
  total : Int
  cantidad : Nat
  ventas : List VentaRow
deriving DecidableEq

/-- The remote range filter of `getVentasPorDia`:
`gte created_at (fechaDesde + "T00:00:00")` and
`lte created_at (fechaHasta + "T23:59:59")`. -/
def ventaInRange (desde hasta : String) (v : VentaRow) : Bool :=
  strLeB (desde ++ "T00:00:00") v.created_at && strLeB v.created_at (hasta ++ "T23:59:59")

/-- One step of the JS grouping loop: merge a sale into the per-day
accumulator (a JS object in insertion order — a new date key is appended,
an existing one updated in place). -/
def addVentaToDia (acc : List DiaVentas) (v : VentaRow) : List DiaVentas :=
  let fecha := datePart v.created_at
  if acc.any (fun d => d.fecha = fecha) then
    updateFirstBy (fun d => d.fecha = fecha)
      (fun d => { d with total := d.total + v.total, cantidad := d.cantidad + 1, ventas := d.ventas ++ [v] }) acc
  else
    acc ++ [{ fecha := fecha, total := v.total, cantidad := 1, ventas := [v] }]

/-- Embedding of `Database.getVentasPorDia`: offline guard, remote range
query ordered by `created_at` descending, grouping by the date part of the
timestamp, and a final sort of the groups by date descending. -/
def getVentasPorDia (isOnline remoteFail : Bool) (desde hasta : String)
    (tabla : List VentaRow) : Except String (List DiaVentas) :=
  if isOnline then
    if remoteFail then .error "Error al obtener ventas"
    else
      let ventas := sortDescBy (fun v => v.created_at) (tabla.filter (ventaInRange desde hasta))
      let agrupadas := ventas.foldl addVentaToDia []
      .ok (sortDescBy (fun d => d.fecha) agrupadas)
  else .error "No se pueden obtener reportes en modo offline"

/-! ## Multi-item stock update and order fulfillment (POS controller) -/

/-- A `{id, cantidad}` entry of the `updates` array passed to
`Database.updateMultipleStock`. -/
structure StockUpdate where
  id : String
  cantidad : Int
deriving DecidableEq

/-- Tags for the remote calls the fulfillment sequence performs, used to
state the order of its steps. -/
inductive RemoteOp where
  | fetchStock (id : String)
  | setStock (id : String) (stock : Int)
  | insertVenta (v : VentaRow)
  | setEstado (id : String) (estado : String)
deriving DecidableEq

/-- Loop body of `Database.updateMultipleStock`: for each update, fetch the
current stock, compute `stock - cantidad`, write it back remotely and mirror
it locally.  `failAt i` models the remote fetch-or-update for the i-th item
throwing; a missing product also makes the single-row fetch throw.  The
emitted trace records the remote writes performed. -/
def updateMultipleStockGo (failAt : Nat → Bool) (i : Nat) (updates : List StockUpdate)
    (loc : LocalStore) (remote : RemoteDB) (trace : List RemoteOp) :
    Except String Bool × LocalStore × RemoteDB × List RemoteOp :=
  match updates with
  | [] => (.ok true, loc, remote, trace)
  | u :: rest =>
    if failAt i then
      (.error "Error al actualizar stock multiple", loc, remote, trace ++ [.fetchStock u.id])
    else
      match remote.productos.find? (fun p => p.id = u.id) with
      | none =>
        (.error "Error al actualizar stock multiple", loc, remote, trace ++ [.fetchStock u.id])
      | some producto =>
        let nuevoStock := producto.stock - u.cantidad
        let prods := remote.productos.map
          (fun p => if p.id = u.id then { p with stock := nuevoStock } else p)
        let remote1 := { remote with productos := prods }
        let loc1 := updateInLocalStorage u.id nuevoStock loc
        updateMultipleStockGo failAt (i + 1) rest loc1 remote1
          (trace ++ [.fetchStock u.id, .setStock u.id nuevoStock])

/-- Embedding of `Database.updateMultipleStock`. -/
def updateMultipleStock (isOnline : Bool) (failAt : Nat → Bool)
    (updates : List StockUpdate) (loc : LocalStore) (remote : RemoteDB) :
    Except String Bool × LocalStore × RemoteDB × List RemoteOp :=
  if isOnline then updateMultipleStockGo failAt 0 updates loc remote []
  else (.error "No se puede actualizar stock en modo offline", loc, remote, [])

/-- Embedding of `POS.confirmarEntrega`: look the order up among the pending
orders, ask the operator to confirm, then (1) decrement stock for every line
item via `updateMultipleStock`, (2) create a Sale record referencing the
order, (3) set the order estado to `completado`.  Any step throwing lands in
the catch block: the function reports failure, leaving whatever the earlier
steps already wrote in place.  Returns the success flag, the final stores
and the trace of remote writes performed. -/
def confirmarEntrega (pedidoId : String) (confirmOk : Bool) (failAt : Nat → Bool)
    (failVenta failEstado : Bool) (ventaId nowIso : String)
    (loc : LocalStore) (remote : RemoteDB) :
    Bool × LocalStore × RemoteDB × List RemoteOp :=
  let pedidos := getPedidosPendientes true false remote.pedidos
  match pedidos.find? (fun p => p.id = pedidoId) with
  | none => (false, loc, remote, [])
  | some pedido =>
    if confirmOk then
      let actualizaciones := pedido.productos.map (fun item => StockUpdate.mk item.id item.cantidad)
      match updateMultipleStock true failAt actualizaciones loc remote with
      | (.error _, loc1, remote1, trace1) => (false, loc1, remote1, trace1)
      | (.ok _, loc1, remote1, trace1) =>
        let ventaInput : VentaInput :=
          { pedido_id := some pedido.id, total := pedido.total,
            metodo_pago := pedido.metodo_pago, productos := pedido.productos }
        match createVenta true failVenta ventaId nowIso ventaInput loc1 remote1 with
        | (.error _, loc2, remote2) => (false, loc2, remote2, trace1)
        | (.ok venta, loc2, remote2) =>
          match updatePedidoEstado true failEstado pedido.id "completado" remote2 with
          | (.error _, remote3) =>
            (false, loc2, remote3, trace1 ++ [.insertVenta venta])
          | (.ok _, remote3) =>
            (true, loc2, remote3,
             trace1 ++ [.insertVenta venta, .setEstado pedido.id "completado"])
    else (false, loc, remote, [])

/-! ## System steps over the remote store (for the order-status invariant)

Every operation of the system that can change the remote store, with
arbitrary failure schedules.  `updatePedidoEstado` has a single call site,
inside `confirmarEntrega` with the literal `'completado'`, so it appears
here only through `confirmarEntrega`. -/

inductive SysStep : RemoteDB → RemoteDB → Prop
  | addProductoStep (remoteFail : Bool) (serverId : String) (now : Nat) (nowIso : String)
      (input : ProductoInput) (loc : LocalStore) (remote : RemoteDB) :
      SysStep remote (addProducto true remoteFail serverId now nowIso input loc remote).2.2
  | updateStockStep (remoteFail : Bool) (now : Nat) (id : String) (n : Int)
      (loc : LocalStore) (remote : RemoteDB) :
      SysStep remote (updateStock true remoteFail now id n loc remote).2.2
  | createPedidoStep (remoteFail : Bool) (serverId nowIso : String) (pedido : Pedido)
      (loc : LocalStore) (remote : RemoteDB) :
      SysStep remote (createPedido true remoteFail serverId nowIso pedido loc remote).2.2
  | createVentaStep (remoteFail : Bool) (serverId nowIso : String) (venta : VentaInput)
      (loc : LocalStore) (remote : RemoteDB) :
      SysStep remote (createVenta true remoteFail serverId nowIso venta loc remote).2.2
  | updateMultipleStockStep (failAt : Nat → Bool) (updates : List StockUpdate)
      (loc : LocalStore) (remote : RemoteDB) :
      SysStep remote (updateMultipleStock true failAt updates loc remote).2.2.1
  | confirmarEntregaStep (pedidoId : String) (confirmOk : Bool) (failAt : Nat → Bool)
      (failVenta failEstado : Bool) (ventaId nowIso : String)
      (loc : LocalStore) (remote : RemoteDB) :
      SysStep remote
        (confirmarEntrega pedidoId confirmOk failAt failVenta failEstado ventaId nowIso loc remote).2.2.1
  | syncStep (fails : Nat → Bool) (loc : LocalStore) (remote : RemoteDB) :
      SysStep remote (syncPendingChanges true fails loc remote).2

/-! ## Barcode keystroke classifier (src/js/barcode-scanner.js) -/

/-- The scanner configuration values read from `CONFIG.SCANNER`. -/
structure ScannerConfig where
  minBarcodeLength : Nat
  maxTimeBetweenChars : Nat
  bufferClearTimeout : Nat

/-- Mutable state of the `BarcodeScanner` instance.  `timerArmed` records
whether a buffer-expiry timer is pending (armed by `resetClearTimer`). -/
structure ScannerState where
  buffer : String
  lastKeyTime : Nat
  isScanning : Bool
  timerArmed : Bool
deriving DecidableEq

/-- One keypress event: the key, its `Date.now()` time, and the focus
situation the handler inspects. -/
structure KeyEvent where
  key : String
  time : Nat
  inputFocused : Bool
  isSearchField : Bool
deriving DecidableEq

/-- Embedding of `BarcodeScanner.clearBuffer`. -/
def clearBuffer (st : ScannerState) : ScannerState :=
  { st with buffer := "", lastKeyTime := 0 }

/-- Embedding of `BarcodeScanner.handleKeyPress`, returning the new state
and the list of codes emitted (via `processScan`) while handling the event.
The buffer-expiry timer armed by `resetClearTimer` is modelled as a
pre-step: if a timer was armed and its timeout elapsed strictly before this
event, the timer callback already ran `clearBuffer`. -/
def handleKeyPress (cfg : ScannerConfig) (st : ScannerState) (ev : KeyEvent) :
    ScannerState × List String :=
  if ev.inputFocused ∧ ¬ ev.isSearchField then (st, [])
  else
    let st := if st.timerArmed ∧ cfg.bufferClearTimeout < ev.time - st.lastKeyTime then
        clearBuffer st
      else st
    let timeDiff := ev.time - st.lastKeyTime
    if ev.key = "Enter" then
      if cfg.minBarcodeLength ≤ st.buffer.length then
        ({ clearBuffer st with isScanning := false }, [jsTrim st.buffer])
      else
        ({ clearBuffer st with isScanning := false }, [])
    else
      let st1 := if cfg.maxTimeBetweenChars < timeDiff ∧ st.buffer.length ≠ 0 then
          clearBuffer st
        else st
      let newBuffer := st1.buffer ++ ev.key
      let scanning := if timeDiff < cfg.maxTimeBetweenChars ∧ newBuffer.length ≠ 0 then
          true
        else st1.isScanning
      (⟨newBuffer, ev.time, scanning, true⟩, [])

/-- Process a sequence of keypress events, accumulating emitted codes. -/
def processEvents (cfg : ScannerConfig) (st : ScannerState) :
    List KeyEvent → ScannerState × List String
  | [] => (st, [])
  | ev :: evs =>
    let r := handleKeyPress cfg st ev
    let rest := processEvents cfg r.1 evs
    (rest.1, r.2 ++ rest.2)

/-- Initial state of the `BarcodeScanner` constructor. -/
def initScanner : ScannerState := ⟨"", 0, false, false⟩

/-- Concatenation of the keys of a burst, in order (the buffer contents the
JS handler accumulates). -/
def joinKeys : List KeyEvent → String
  | [] => ""
  | ev :: evs => ev.key ++ joinKeys evs

/-- All inter-key gaps below the max-interval threshold, starting from a
previous keystroke at time `prev` (times weakly monotone). -/
def fastGaps (cfg : ScannerConfig) : Nat → List KeyEvent → Prop
  | _, [] => True
  | prev, ev :: evs =>
    prev ≤ ev.time ∧ ev.time - prev < cfg.maxTimeBetweenChars ∧ fastGaps cfg ev.time evs

/-- The time of the last event of a burst (`prev` when the burst is empty). -/
def lastTimeOf (prev : Nat) : List KeyEvent → Nat
  | [] => prev
  | ev :: evs => lastTimeOf ev.time evs

/-- An event the classifier actually processes: not blocked by the focused
text-input guard. -/
def notBlocked (ev : KeyEvent) : Prop := ¬ (ev.inputFocused ∧ ¬ ev.isSearchField)

/-! ## Public-catalog cart (src/js/cliente.js) -/

/-- A cart line of the public catalog: product snapshot plus quantity, the
stock field remembering the product stock at the time the line was
created. -/
structure CartItem where
  id : String
  nombre : String
  precio : Int
  cantidad : Int
  stock : Int
deriving DecidableEq

/-- Embedding of `CatalogoCliente.agregarAlCarrito`: increment the existing
line if its quantity is below the passed product's stock, otherwise reject;
create a new line with quantity 1 and a stock snapshot otherwise. -/
def agregarAlCarrito (carrito : List CartItem) (producto : Producto) : List CartItem :=
  match carrito.find? (fun item => item.id = producto.id) with
  | some itemExistente =>
    if itemExistente.cantidad < producto.stock then
      updateFirstBy (fun item => item.id = producto.id)
        (fun item => { item with cantidad := item.cantidad + 1 }) carrito
    else carrito
  | none =>
    carrito ++ [⟨producto.id, producto.nombre, producto.precio, 1, producto.stock⟩]

/-- Embedding of `CatalogoCliente.eliminarDelCarrito`. -/
def eliminarDelCarrito (carrito : List CartItem) (productoId : String) : List CartItem :=
  carrito.filter (fun item => item.id ≠ productoId)

/-- Embedding of `CatalogoCliente.actualizarCantidad` with the configured
`CONFIG.CARRITO.MAX_CANTIDAD_POR_PRODUCTO` cap passed in as `cap`:
quantities at or below zero remove the line; quantities above the line's
remembered stock or above the cap are rejected with the cart unchanged. -/
def actualizarCantidad (cap : Int) (carrito : List CartItem) (productoId : String)
    (nuevaCantidad : Int) : List CartItem :=
  match carrito.find? (fun item => item.id = productoId) with
  | none => carrito
  | some item =>
    if nuevaCantidad ≤ 0 then eliminarDelCarrito carrito productoId
    else if item.stock < nuevaCantidad then carrito
    else if cap < nuevaCantidad then carrito
    else
      updateFirstBy (fun it => it.id = productoId)
        (fun it => { it with cantidad := nuevaCantidad }) carrito

/-- A public-catalog cart operation.  The increment and decrement buttons
call `actualizarCantidad` with the current quantity plus or minus one, so
`setQty` with an arbitrary value covers them as well as direct edits. -/
inductive CartOp where
  | add (producto : Producto)
  | setQty (productoId : String) (nuevaCantidad : Int)
  | remove (productoId : String)

/-- Apply one cart operation. -/
def applyCartOp (cap : Int) (carrito : List CartItem) : CartOp → List CartItem
  | .add p => agregarAlCarrito carrito p
  | .setQty id n => actualizarCantidad cap carrito id n
  | .remove id => eliminarDelCarrito carrito id

/-- Run a sequence of cart operations. -/
def runCartOps (cap : Int) (carrito : List CartItem) (ops : List CartOp) : List CartItem :=
  ops.foldl (applyCartOp cap) carrito

/-! ## Shared helper lemmas -/

theorem insertDescBy_perm {α : Type} (key : α → String) (a : α) (l : List α) :
    (insertDescBy key a l).Perm (a :: l) := by
  induction l with
  | nil => simp [insertDescBy]
  | cons b l ih =>
    simp only [insertDescBy]
    split_ifs with h
    · exact ((ih.cons b).trans (List.Perm.swap a b l))
    · exact List.Perm.refl _

theorem sortDescBy_perm {α : Type} (key : α → String) (l : List α) :
    (sortDescBy key l).Perm l := by
  induction l with
  | nil => simp [sortDescBy]
  | cons a l ih =>
    exact (insertDescBy_perm key a (sortDescBy key l)).trans (ih.cons a)

/-- Descending order by a string key. -/
def DescSorted {α : Type} (key : α → String) (l : List α) : Prop :=
  l.Pairwise (fun x y => (key y).data ≤ (key x).data)

theorem insertDescBy_sorted {α : Type} (key : α → String) (a : α) (l : List α)
    (h : DescSorted key l) : DescSorted key (insertDescBy key a l) := by
  induction l with
  | nil => simp [insertDescBy, DescSorted]
  | cons b l ih =>
    simp only [insertDescBy]
    rcases List.pairwise_cons.mp h with ⟨hb, hl⟩
    split_ifs with hlt
    · refine List.pairwise_cons.mpr ⟨?_, ih hl⟩
      intro x hx
      rcases List.mem_cons.mp ((insertDescBy_perm key a l).mem_iff.mp hx) with hxa | hxl
      · subst hxa; exact le_of_lt hlt
      · exact hb x hxl
    · refine List.pairwise_cons.mpr ⟨?_, h⟩
      intro x hx
      rcases List.mem_cons.mp hx with hxb | hxl
      · subst hxb; exact le_of_not_lt hlt
      · exact le_trans (hb x hxl) (le_of_not_lt hlt)

theorem sortDescBy_sorted {α : Type} (key : α → String) (l : List α) :
    DescSorted key (sortDescBy key l) := by
  induction l with
  | nil => simp [sortDescBy, DescSorted]
  | cons a l ih => exact insertDescBy_sorted key a _ ih

theorem updateFirstBy_eq_of_find?_none {α : Type} (p : α → Bool) (f : α → α) (l : List α)
    (h : l.find? p = none) : updateFirstBy p f l = l := by
  induction l with
  | nil => rfl
  | cons a l ih =>
    by_cases hpa : p a
    · rw [List.find?_cons_of_pos _ hpa] at h
      exact absurd h (by simp)
    · rw [List.find?_cons_of_neg _ hpa] at h
      simp only [updateFirstBy]
      rw [if_neg hpa, ih h]

theorem mem_updateFirstBy_of_find? {α : Type} (p : α → Bool) (f : α → α) (l : List α) (a : α)
    (h : l.find? p = some a) :
    ∀ x ∈ updateFirstBy p f l, x ∈ l ∨ x = f a := by
  induction l with
  | nil => simp at h
  | cons b l ih =>
    by_cases hpb : p b
    · rw [List.find?_cons_of_pos _ hpb] at h
      injection h with h
      subst h
      simp only [updateFirstBy, hpb, if_true]
      intro x hx
      rcases List.mem_cons.mp hx with hxa | hxl
      · right; exact hxa
      · left; exact List.mem_cons_of_mem _ hxl
    · rw [List.find?_cons_of_neg _ hpb] at h
      simp only [updateFirstBy]
      rw [if_neg hpb]
      intro x hx
      rcases List.mem_cons.mp hx with hxb | hxl
      · left; subst hxb; exact List.mem_cons_self _ _
      · rcases ih h x hxl with hmem | heq
        · left; exact List.mem_cons_of_mem _ hmem
        · right; exact heq

theorem foldl_skip_eq_filter {β : Type} (fails : Nat → Bool) (g : β → PendingChange → β) :
    ∀ (l : List (Nat × PendingChange)) (r : β),
      l.foldl (fun acc ic => if fails ic.1 then acc else g acc ic.2) r =
      ((l.filter (fun ic => !fails ic.1)).map (fun ic => ic.2)).foldl g r := by
  intro l
  induction l with
  | nil => intro r; rfl
  | cons a l ih =>
    intro r
    by_cases h : fails a.1 <;> simp [h, ih]

/-! ## Claim theorems -/

/-- C9: after the public catalog loads products, the displayed list contains
exactly the products returned by `getProductos` with strictly positive
stock (and in the same relative order, as a sublist), while the POS
inventory view keeps the full list. -/
theorem catalogo_filters_zero_stock (l : List Producto) (p : Producto) :
    (p ∈ cargarProductos l ↔ (p ∈ l ∧ 0 < p.stock)) ∧
    (cargarProductos l).Sublist l ∧
    posCargarProductos l = l := by
  refine ⟨?_, List.filter_sublist _, rfl⟩
  simp [cargarProductos]

/-- C10: `getPedidosPendientes` never throws: offline it returns the empty
list; online with the remote query failing, the catch block also returns
the empty list, indistinguishable from an online success over a table with
no pending orders. -/
theorem getPedidosPendientes_empty_fallback (isOnline remoteFail : Bool)
    (tabla : List PedidoRow) :
    (isOnline = false → getPedidosPendientes isOnline remoteFail tabla = []) ∧
    (remoteFail = true → getPedidosPendientes isOnline remoteFail tabla = []) ∧
    getPedidosPendientes true true tabla = getPedidosPendientes true false [] := by
  refine ⟨?_, ?_, ?_⟩
  · intro h; subst h; simp [getPedidosPendientes]
  · intro h; subst h
    cases isOnline <;> simp [getPedidosPendientes, remoteQueryPendientes]
  · simp [getPedidosPendientes, remoteQueryPendientes, sortDescBy]

/-- Witness for C10 at concrete inputs. -/
theorem getPedidosPendientes_empty_fallback_witness :
    getPedidosPendientes false false [] = [] ∧ getPedidosPendientes true true [] = [] :=
  ⟨(getPedidosPendientes_empty_fallback false false []).1 rfl,
   (getPedidosPendientes_empty_fallback true true []).2.1 rfl⟩

/-- C4 counterexample: a customer name of raw length 2 whose trimmed length
is 1 ("A ") passes validation, because the length check runs on the
untrimmed string; the claim as stated requires at least 2 characters after
trimming, hence invalid. -/
theorem validarPedido_untrimmed_length_counterexample :
    (validarPedido ⟨"A ", [⟨"1", "X", 1, 5⟩], 10, "efectivo", "15 min"⟩).valid = true ∧
    (jsTrim "A ").length < 2 := by decide

/-- C4 amended: `validarPedido` accepts exactly when the trimmed customer
name is non-empty AND the raw (untrimmed) name has length at least 2, there
is at least one line item, arrival time and payment method are present, and
the total is strictly positive; the checks run in that order and the first
failing check's message is returned. -/
theorem validarPedido_fail_fast_amended (p : Pedido) :
    ((validarPedido p).valid = true ↔
      (jsTrim p.cliente ≠ "" ∧ 2 ≤ p.cliente.length ∧ p.productos ≠ [] ∧
        p.tiempo_llegada ≠ "" ∧ p.metodo_pago ≠ "" ∧ 0 < p.total)) ∧
    (jsTrim p.cliente = "" →
      validarPedido p = ⟨false, some "El nombre del cliente es requerido"⟩) ∧
    (jsTrim p.cliente ≠ "" → p.cliente.length < 2 →
      validarPedido p = ⟨false, some "El nombre debe tener al menos 2 caracteres"⟩) ∧
    (jsTrim p.cliente ≠ "" → 2 ≤ p.cliente.length → p.productos = [] →
      validarPedido p = ⟨false, some "El pedido debe contener al menos un producto"⟩) ∧
    (jsTrim p.cliente ≠ "" → 2 ≤ p.cliente.length → p.productos ≠ [] →
      p.tiempo_llegada = "" →
      validarPedido p = ⟨false, some "Debe seleccionar un tiempo de llegada"⟩) ∧
    (jsTrim p.cliente ≠ "" → 2 ≤ p.cliente.length → p.productos ≠ [] →
      p.tiempo_llegada ≠ "" → p.metodo_pago = "" →
      validarPedido p = ⟨false, some "Debe seleccionar un método de pago"⟩) ∧
    (jsTrim p.cliente ≠ "" → 2 ≤ p.cliente.length → p.productos ≠ [] →
      p.tiempo_llegada ≠ "" → p.metodo_pago ≠ "" → p.total ≤ 0 →
      validarPedido p = ⟨false, some "El total del pedido debe ser mayor a cero"⟩) := by
  simp only [validarPedido]
  split_ifs with h1 h2 h3 h4 h5 h6 <;>
    simp_all [List.length_eq_zero]

/-- Witness for C4 amended at concrete inputs. -/
theorem validarPedido_fail_fast_amended_witness :
    (validarPedido ⟨"Jon", [⟨"1", "X", 1, 5⟩], 10, "efectivo", "15 min"⟩).valid = true ∧
    validarPedido ⟨"", [⟨"1", "X", 1, 5⟩], 10, "efectivo", "15 min"⟩ =
      ⟨false, some "El nombre del cliente es requerido"⟩ :=
  ⟨(validarPedido_fail_fast_amended _).1.mpr
    (by refine ⟨?_, ?_, ?_, ?_, ?_, ?_⟩ <;> decide),
   (validarPedido_fail_fast_amended _).2.1 (by decide)⟩

/-- C1: with the sync engine offline, `createPedido`, `createVenta` and
`getVentasPorDia` throw their explicit offline errors and leave both stores
untouched, while `addProducto` succeeds with a temporary local id, inserts
into the mirror immediately and appends exactly one pending change, and
`updateStock` updates the mirror and appends exactly one pending change,
neither touching the remote store. -/
theorem offline_mode_gating (remoteFail : Bool) (serverId nowIso : String) (now : Nat)
    (pedido : Pedido) (venta : VentaInput) (input : ProductoInput)
    (id : String) (qty : Int) (desde hasta : String)
    (loc : LocalStore) (remote : RemoteDB) (tabla : List VentaRow) :
    (createPedido false remoteFail serverId nowIso pedido loc remote =
      (.error "No se pueden crear pedidos en modo offline", loc, remote)) ∧
    (createVenta false remoteFail serverId nowIso venta loc remote =
      (.error "No se pueden registrar ventas en modo offline", loc, remote)) ∧
    (getVentasPorDia false remoteFail desde hasta tabla =
      .error "No se pueden obtener reportes en modo offline") ∧
    (∃ p, (addProducto false remoteFail serverId now nowIso input loc remote).1 = .ok p ∧
      p.id = "temp_" ++ toString now ∧
      (addProducto false remoteFail serverId now nowIso input loc remote).2.1.productos =
        loc.productos ++ [p] ∧
      (addProducto false remoteFail serverId now nowIso input loc remote).2.1.pending =
        loc.pending ++ [⟨"insert", .ins p, now⟩] ∧
      (addProducto false remoteFail serverId now nowIso input loc remote).2.2 = remote) ∧
    ((updateStock false remoteFail now id qty loc remote).1 =
        .ok ((updateInLocalStorage id qty loc).productos.find? (fun p => p.id = id)) ∧
      (updateStock false remoteFail now id qty loc remote).2.1.productos =
        (updateInLocalStorage id qty loc).productos ∧
      (updateStock false remoteFail now id qty loc remote).2.1.pending =
        loc.pending ++ [⟨"update", .upd id qty, now⟩] ∧
      (updateStock false remoteFail now id qty loc remote).2.2 = remote) := by
  refine ⟨rfl, rfl, rfl, ⟨_, rfl, rfl, rfl, ?_, rfl⟩, rfl, rfl, ?_, rfl⟩
  · simp [addProducto, savePendingChange]
  · simp [updateStock, savePendingChange, updateInLocalStorage]

/-- C2: `syncPendingChanges` clears the whole pending queue regardless of
the per-item failure schedule, and the remote store after the sweep equals
the fold, in enqueue order, of exactly the non-failing replays (each
applied by operation kind via `applyChange`); `savePendingChange` enqueues
at the tail, making the iteration FIFO. -/
theorem syncPendingChanges_fifo_lossy_clear (fails : Nat → Bool)
    (loc : LocalStore) (remote : RemoteDB) :
    ((syncPendingChanges true fails loc remote).1.pending = []) ∧
    ((syncPendingChanges true fails loc remote).2 =
      ((loc.pending.enum.filter (fun ic => !fails ic.1)).map (fun ic => ic.2)).foldl
        applyChange remote) ∧
    (∀ op data now st, (savePendingChange op data now st).pending =
      st.pending ++ [⟨op, data, now⟩]) := by
  refine ⟨?_, ?_, fun op data now st => rfl⟩
  · by_cases h : loc.pending.length = 0
    · have h2 := List.length_eq_zero.mp h
      simp [syncPendingChanges, h, h2]
    · simp [syncPendingChanges, h]
  · by_cases h : loc.pending.length = 0
    · have h2 := List.length_eq_zero.mp h
      simp [syncPendingChanges, h, h2, List.enum]
    · simp [syncPendingChanges, h, foldl_skip_eq_filter fails applyChange]

/-! ## C7: cart invariants -/

/-- The cart invariant of the claim's provable part: every line has a
positive quantity bounded by the line's remembered stock snapshot. -/
def cartInv (carrito : List CartItem) : Prop :=
  ∀ item ∈ carrito, 0 < item.cantidad ∧ item.cantidad ≤ item.stock

/-- Side condition on a single cart operation under which the invariant is
preserved: an add must carry positive stock, and for an existing line the
passed product's stock must not exceed the line's remembered snapshot
(which holds when the catalog has not been refreshed upward since the line
was created). -/
def opOk (carrito : List CartItem) : CartOp → Prop
  | .add p => 0 < p.stock ∧ ∀ item ∈ carrito, item.id = p.id → p.stock ≤ item.stock
  | .setQty _ _ => True
  | .remove _ => True

/-- The side condition threaded through a whole operation sequence. -/
def opsOk (cap : Int) (carrito : List CartItem) : List CartOp → Prop
  | [] => True
  | op :: ops => opOk carrito op ∧ opsOk cap (applyCartOp cap carrito op) ops

theorem cartInv_agregar (carrito : List CartItem) (p : Producto)
    (hinv : cartInv carrito) (hstock : 0 < p.stock)
    (hle : ∀ item ∈ carrito, item.id = p.id → p.stock ≤ item.stock) :
    cartInv (agregarAlCarrito carrito p) := by
  unfold agregarAlCarrito
  cases hfind : carrito.find? (fun item => item.id = p.id) with
  | none =>
    dsimp only
    intro x hx
    rcases List.mem_append.mp hx with hxm | hxm
    · exact hinv x hxm
    · rcases List.mem_singleton.mp hxm with rfl
      refine ⟨?_, ?_⟩ <;> dsimp only <;> omega
  | some item =>
    have hmem : item ∈ carrito := List.mem_of_find?_eq_some hfind
    have hid : item.id = p.id := by simpa using List.find?_some hfind
    dsimp only
    split_ifs with hlt
    · intro x hx
      rcases mem_updateFirstBy_of_find? _ _ carrito item hfind x hx with hxm | rfl
      · exact hinv x hxm
      · have h1 := (hinv item hmem).1
        have h2 := hle item hmem hid
        refine ⟨?_, ?_⟩ <;> dsimp only <;> omega
    · exact hinv

theorem cartInv_actualizar (cap : Int) (carrito : List CartItem) (id : String)
    (n : Int) (hinv : cartInv carrito) :
    cartInv (actualizarCantidad cap carrito id n) := by
  unfold actualizarCantidad
  cases hfind : carrito.find? (fun item => item.id = id) with
  | none => exact hinv
  | some item =>
    dsimp only
    split_ifs with h0 hstock hcap
    · intro x hx
      exact hinv x (List.mem_of_mem_filter hx)
    · exact hinv
    · exact hinv
    · intro x hx
      rcases mem_updateFirstBy_of_find? _ _ carrito item hfind x hx with hxm | rfl
      · exact hinv x hxm
      · refine ⟨?_, ?_⟩ <;> dsimp only <;> omega

theorem cartInv_eliminar (carrito : List CartItem) (id : String)
    (hinv : cartInv carrito) : cartInv (eliminarDelCarrito carrito id) := by
  intro x hx
  exact hinv x (List.mem_of_mem_filter hx)

theorem cartInv_run (cap : Int) (ops : List CartOp) :
    ∀ carrito : List CartItem, cartInv carrito → opsOk cap carrito ops →
      cartInv (runCartOps cap carrito ops) := by
  induction ops with
  | nil => intro carrito hinv _; exact hinv
  | cons op ops ih =>
    intro carrito hinv hok
    rcases hok with ⟨hop, hops⟩
    have hstep : cartInv (applyCartOp cap carrito op) := by
      cases op with
      | add p => exact cartInv_agregar carrito p hinv hop.1 hop.2
      | setQty pid n => exact cartInv_actualizar cap carrito pid n hinv
      | remove pid => exact cartInv_eliminar carrito pid hinv
    exact ih (applyCartOp cap carrito op) hstep hops

/-- C7 counterexample: with cap 2, adding a product of stock 1 (creating a
line remembering stock 1) and then twice re-adding the same product after
its catalog stock rose to 3 drives the line's quantity to 3 — above both
the line's remembered stock (1) and the configured max-per-product cap (2),
refuting "never exceeds the stock remembered for that line and never
exceeds the configured max-per-product cap". -/
theorem cart_cap_stock_counterexample :
    runCartOps 2 []
      [.add ⟨"a", "111", "X", 5, 1, none, ""⟩,
       .add ⟨"a", "111", "X", 5, 3, none, ""⟩,
       .add ⟨"a", "111", "X", 5, 3, none, ""⟩] =
      [⟨"a", "X", 5, 3, 1⟩] ∧ (1 : Int) < 3 ∧ (2 : Int) < 3 := by decide

/-- Positivity alone: every cart line's quantity is strictly positive.
Unlike `cartInv`, this holds for ALL operation sequences, with no side
condition on the stock carried by add operations. -/
def cartInvPos (carrito : List CartItem) : Prop :=
  ∀ item ∈ carrito, 0 < item.cantidad

theorem cartInvPos_agregar (carrito : List CartItem) (p : Producto)
    (hinv : cartInvPos carrito) : cartInvPos (agregarAlCarrito carrito p) := by
  unfold agregarAlCarrito
  cases hfind : carrito.find? (fun item => item.id = p.id) with
  | none =>
    dsimp only
    intro x hx
    rcases List.mem_append.mp hx with hxm | hxm
    · exact hinv x hxm
    · rcases List.mem_singleton.mp hxm with rfl
      dsimp only
      omega
  | some item =>
    have hmem : item ∈ carrito := List.mem_of_find?_eq_some hfind
    dsimp only
    split_ifs with hlt
    · intro x hx
      rcases mem_updateFirstBy_of_find? _ _ carrito item hfind x hx with hxm | rfl
      · exact hinv x hxm
      · have h1 := hinv item hmem
        dsimp only
        omega
    · exact hinv

theorem cartInvPos_actualizar (cap : Int) (carrito : List CartItem) (id : String)
    (n : Int) (hinv : cartInvPos carrito) :
    cartInvPos (actualizarCantidad cap carrito id n) := by
  unfold actualizarCantidad
  cases hfind : carrito.find? (fun item => item.id = id) with
  | none => exact hinv
  | some item =>
    dsimp only
    split_ifs with h0 hstock hcap
    · intro x hx
      exact hinv x (List.mem_of_mem_filter hx)
    · exact hinv
    · exact hinv
    · intro x hx
      rcases mem_updateFirstBy_of_find? _ _ carrito item hfind x hx with hxm | rfl
      · exact hinv x hxm
      · dsimp only
        omega

theorem cartInvPos_run (cap : Int) (ops : List CartOp) :
    ∀ carrito : List CartItem, cartInvPos carrito →
      cartInvPos (runCartOps cap carrito ops) := by
  induction ops with
  | nil => intro c h; exact h
  | cons op ops ih =>
    intro c h
    have hstep : cartInvPos (applyCartOp cap c op) := by
      cases op with
      | add p => exact cartInvPos_agregar c p h
      | setQty pid n => exact cartInvPos_actualizar cap c pid n h
      | remove pid => intro x hx; exact h x (List.mem_of_mem_filter hx)
    exact ih _ hstep

/-- What `agregarAlCarrito` alone guarantees about any line of its result:
the line was already there, or its quantity is bounded by the PASSED
product's stock (the incremented first match, guarded by
`itemExistente.cantidad < producto.stock`), or it is a fresh line with
quantity 1 snapshotting the passed stock.  Neither the cap nor the line's
remembered snapshot appears. -/
theorem mem_agregarAlCarrito (carrito : List CartItem) (p : Producto) (x : CartItem)
    (hx : x ∈ agregarAlCarrito carrito p) :
    x ∈ carrito ∨ x.cantidad ≤ p.stock ∨ (x.cantidad = 1 ∧ x.stock = p.stock) := by
  unfold agregarAlCarrito at hx
  cases hfind : carrito.find? (fun item => item.id = p.id) with
  | none =>
    rw [hfind] at hx
    dsimp only at hx
    rcases List.mem_append.mp hx with hxm | hxm
    · exact Or.inl hxm
    · rcases List.mem_singleton.mp hxm with rfl
      exact Or.inr (Or.inr ⟨rfl, rfl⟩)
  | some item =>
    rw [hfind] at hx
    dsimp only at hx
    split_ifs at hx with hlt
    · rcases mem_updateFirstBy_of_find? _ _ carrito item hfind x hx with hxm | rfl
      · exact Or.inl hxm
      · refine Or.inr (Or.inl ?_)
        dsimp only
        omega
    · exact Or.inl hx

/-- C7 amended: (1) for ALL operation sequences — including those whose
adds carry a raised stock — every cart line's quantity stays a positive
integer; (2) when, additionally, every add either creates a new line from a
product with positive stock or increments an existing line with a product
whose stock does not exceed the line's remembered snapshot, every line's
quantity is also bounded by the line's remembered stock; (3) add-to-cart
bounds a changed line's quantity only by the passed product's current stock
(fresh lines start at quantity 1) — neither by the cap nor by the line's
snapshot, which is what the counterexample exhibits; (4) direct quantity
edits (`actualizarCantidad`, which the increment/decrement buttons also
call) only ever write quantities that are positive and bounded by both the
line's remembered stock and the cap, leaving other lines untouched; (5) a
quantity driven to zero or below removes the line. -/
theorem cart_invariant_amended :
    (∀ (cap : Int) (carrito : List CartItem) (ops : List CartOp),
      cartInvPos carrito → cartInvPos (runCartOps cap carrito ops)) ∧
    (∀ (cap : Int) (carrito : List CartItem) (ops : List CartOp),
      cartInv carrito → opsOk cap carrito ops → cartInv (runCartOps cap carrito ops)) ∧
    (∀ (carrito : List CartItem) (p : Producto) (x : CartItem),
      x ∈ agregarAlCarrito carrito p →
      x ∈ carrito ∨ x.cantidad ≤ p.stock ∨ (x.cantidad = 1 ∧ x.stock = p.stock)) ∧
    (∀ (cap : Int) (carrito : List CartItem) (id : String) (n : Int) (x : CartItem),
      x ∈ actualizarCantidad cap carrito id n →
      x ∈ carrito ∨ (x.cantidad = n ∧ 0 < n ∧ n ≤ x.stock ∧ n ≤ cap)) ∧
    (∀ (cap : Int) (carrito : List CartItem) (id : String) (n : Int),
      n ≤ 0 → ∀ x ∈ actualizarCantidad cap carrito id n, x.id ≠ id) := by
  refine ⟨fun cap carrito ops hpos => cartInvPos_run cap ops carrito hpos,
    fun cap carrito ops hinv hok => cartInv_run cap ops carrito hinv hok,
    fun carrito p x hx => mem_agregarAlCarrito carrito p x hx, ?_, ?_⟩
  · intro cap carrito id n x hx
    unfold actualizarCantidad at hx
    cases hfind : carrito.find? (fun item => item.id = id) with
    | none => rw [hfind] at hx; exact Or.inl hx
    | some item =>
      rw [hfind] at hx
      dsimp only at hx
      split_ifs at hx with h0 hstock hcap
      · exact Or.inl (List.mem_of_mem_filter hx)
      · exact Or.inl hx
      · exact Or.inl hx
      · rcases mem_updateFirstBy_of_find? _ _ carrito item hfind x hx with hxm | rfl
        · exact Or.inl hxm
        · refine Or.inr ⟨rfl, by omega, ?_, by omega⟩
          dsimp only
          omega
  · intro cap carrito id n hn x hx
    unfold actualizarCantidad at hx
    cases hfind : carrito.find? (fun item => item.id = id) with
    | none =>
      rw [hfind] at hx
      have := List.find?_eq_none.mp hfind x hx
      simpa using this
    | some item =>
      rw [hfind] at hx
      dsimp only at hx
      rw [if_pos hn] at hx
      have := List.of_mem_filter hx
      simpa using this

/-- Witness for C7 amended: positivity holds on the counterexample's own
raised-stock-add sequence, and a direct edit is exercised concretely. -/
theorem cart_invariant_amended_witness :
    cartInvPos (runCartOps 2 []
      [.add ⟨"a", "111", "X", 5, 1, none, ""⟩,
       .add ⟨"a", "111", "X", 5, 3, none, ""⟩,
       .add ⟨"a", "111", "X", 5, 3, none, ""⟩]) ∧
    cartInv (runCartOps 10 [] [.add ⟨"a", "111", "X", 5, 2, none, ""⟩]) :=
  ⟨cart_invariant_amended.1 2 [] _ (fun x hx => absurd hx (List.not_mem_nil x)),
   cart_invariant_amended.2.1 10 [] _
    (fun x hx => absurd hx (List.not_mem_nil x))
    ⟨⟨by decide, fun item h => absurd h (List.not_mem_nil item)⟩, trivial⟩⟩

/-! ## C3: fulfillment sequence -/

theorem updateMultipleStockGo_preserves (failAt : Nat → Bool) :
    ∀ (updates : List StockUpdate) (i : Nat) (loc : LocalStore) (remote : RemoteDB)
      (trace : List RemoteOp),
      (updateMultipleStockGo failAt i updates loc remote trace).2.2.1.pedidos = remote.pedidos ∧
      (updateMultipleStockGo failAt i updates loc remote trace).2.2.1.ventas = remote.ventas := by
  intro updates
  induction updates with
  | nil => intro i loc remote trace; exact ⟨rfl, rfl⟩
  | cons u rest ih =>
    intro i loc remote trace
    unfold updateMultipleStockGo
    split_ifs with hf
    · exact ⟨rfl, rfl⟩
    · cases hfind : remote.productos.find? (fun p => p.id = u.id) with
      | none => exact ⟨rfl, rfl⟩
      | some producto =>
        dsimp only
        exact ih (i + 1) _ _ _

/-- C3: `confirmarEntrega` performs its three remote steps in order — the
multi-item stock decrement, the Sale insert referencing the order, the
estado update to `completado` — and they are not atomic: when the Sale
insert fails after a successful stock decrement, the decrement stays
applied with no sale row and no status change; when the estado update fails
after the first two steps, the decrement and the sale row stay applied with
no status change; when all three succeed, all three effects are applied and
the trace is exactly the stock writes, then the sale insert, then the
estado write. -/
theorem confirmarEntrega_three_steps_non_atomic
    (pedidoId ventaId nowIso : String) (failAt : Nat → Bool)
    (failVenta failEstado : Bool) (loc : LocalStore) (remote : RemoteDB)
    (pedido : PedidoRow)
    (hfind : (getPedidosPendientes true false remote.pedidos).find?
      (fun p => p.id = pedidoId) = some pedido)
    (hstock : (updateMultipleStock true failAt
      (pedido.productos.map (fun item => StockUpdate.mk item.id item.cantidad))
      loc remote).1 = .ok true) :
    (failVenta = true →
      (confirmarEntrega pedidoId true failAt failVenta failEstado ventaId nowIso loc remote) =
        (false,
         (updateMultipleStock true failAt
           (pedido.productos.map (fun item => StockUpdate.mk item.id item.cantidad))
           loc remote).2.1,
         (updateMultipleStock true failAt
           (pedido.productos.map (fun item => StockUpdate.mk item.id item.cantidad))
           loc remote).2.2.1,
         (updateMultipleStock true failAt
           (pedido.productos.map (fun item => StockUpdate.mk item.id item.cantidad))
           loc remote).2.2.2)) ∧
    (failVenta = true →
      (confirmarEntrega pedidoId true failAt failVenta failEstado ventaId nowIso loc remote).2.2.1.ventas =
        remote.ventas ∧
      (confirmarEntrega pedidoId true failAt failVenta failEstado ventaId nowIso loc remote).2.2.1.pedidos =
        remote.pedidos) ∧
    (failVenta = false → failEstado = true →
      (confirmarEntrega pedidoId true failAt failVenta failEstado ventaId nowIso loc remote) =
        (false,
         (updateMultipleStock true failAt
           (pedido.productos.map (fun item => StockUpdate.mk item.id item.cantidad))
           loc remote).2.1,
         { (updateMultipleStock true failAt
             (pedido.productos.map (fun item => StockUpdate.mk item.id item.cantidad))
             loc remote).2.2.1 with
           ventas := (updateMultipleStock true failAt
             (pedido.productos.map (fun item => StockUpdate.mk item.id item.cantidad))
             loc remote).2.2.1.ventas ++
             [⟨ventaId, nowIso, some pedido.id, pedido.total, pedido.metodo_pago, pedido.productos⟩] },
         (updateMultipleStock true failAt
           (pedido.productos.map (fun item => StockUpdate.mk item.id item.cantidad))
           loc remote).2.2.2 ++
           [.insertVenta ⟨ventaId, nowIso, some pedido.id, pedido.total, pedido.metodo_pago, pedido.productos⟩])) ∧
    (failVenta = false → failEstado = true →
      (confirmarEntrega pedidoId true failAt failVenta failEstado ventaId nowIso loc remote).2.2.1.ventas =
        remote.ventas ++
          [⟨ventaId, nowIso, some pedido.id, pedido.total, pedido.metodo_pago, pedido.productos⟩] ∧
      (confirmarEntrega pedidoId true failAt failVenta failEstado ventaId nowIso loc remote).2.2.1.pedidos =
        remote.pedidos) ∧
    (failVenta = false → failEstado = false →
      (confirmarEntrega pedidoId true failAt failVenta failEstado ventaId nowIso loc remote).1 = true ∧
      (confirmarEntrega pedidoId true failAt failVenta failEstado ventaId nowIso loc remote).2.2.1.productos =
        (updateMultipleStock true failAt
          (pedido.productos.map (fun item => StockUpdate.mk item.id item.cantidad))
          loc remote).2.2.1.productos ∧
      (confirmarEntrega pedidoId true failAt failVenta failEstado ventaId nowIso loc remote).2.2.1.ventas =
        remote.ventas ++
          [⟨ventaId, nowIso, some pedido.id, pedido.total, pedido.metodo_pago, pedido.productos⟩] ∧
      (confirmarEntrega pedidoId true failAt failVenta failEstado ventaId nowIso loc remote).2.2.1.pedidos =
        remote.pedidos.map
          (fun p => if p.id = pedido.id then { p with estado := "completado" } else p) ∧
      (confirmarEntrega pedidoId true failAt failVenta failEstado ventaId nowIso loc remote).2.2.2 =
        (updateMultipleStock true failAt
          (pedido.productos.map (fun item => StockUpdate.mk item.id item.cantidad))
          loc remote).2.2.2 ++
          [.insertVenta ⟨ventaId, nowIso, some pedido.id, pedido.total, pedido.metodo_pago, pedido.productos⟩,
           .setEstado pedido.id "completado"]) := by
  have hpres := updateMultipleStockGo_preserves failAt
    (pedido.productos.map (fun item => StockUpdate.mk item.id item.cantidad)) 0 loc remote []
  have heta : updateMultipleStock true failAt
      (pedido.productos.map (fun item => StockUpdate.mk item.id item.cantidad)) loc remote =
      ((updateMultipleStock true failAt
        (pedido.productos.map (fun item => StockUpdate.mk item.id item.cantidad)) loc remote).1,
       (updateMultipleStock true failAt
        (pedido.productos.map (fun item => StockUpdate.mk item.id item.cantidad)) loc remote).2.1,
       (updateMultipleStock true failAt
        (pedido.productos.map (fun item => StockUpdate.mk item.id item.cantidad)) loc remote).2.2.1,
       (updateMultipleStock true failAt
        (pedido.productos.map (fun item => StockUpdate.mk item.id item.cantidad)) loc remote).2.2.2) := rfl
  have hpres1 : (updateMultipleStock true failAt
      (pedido.productos.map (fun item => StockUpdate.mk item.id item.cantidad))
      loc remote).2.2.1.pedidos = remote.pedidos := hpres.1
  have hpres2 : (updateMultipleStock true failAt
      (pedido.productos.map (fun item => StockUpdate.mk item.id item.cantidad))
      loc remote).2.2.1.ventas = remote.ventas := hpres.2
  simp only [confirmarEntrega]
  rw [hfind]
  dsimp only
  rw [heta, hstock]
  cases failVenta with
  | true =>
    simp only [createVenta]
    refine ⟨fun _ => rfl, fun _ => ⟨hpres2, hpres1⟩, ?_, ?_, ?_⟩ <;> intro hc <;> exact absurd hc (by simp)
  | false =>
    simp only [createVenta]
    cases failEstado with
    | true =>
      simp only [updatePedidoEstado]
      refine ⟨?_, ?_, fun _ _ => rfl, fun _ _ => ⟨by simp [hpres2], hpres1⟩, ?_⟩
      · intro hc; exact absurd hc (by simp)
      · intro hc; exact absurd hc (by simp)
      · intro _ hc; exact absurd hc (by simp)
    | false =>
      simp only [updatePedidoEstado]
      refine ⟨?_, ?_, ?_, ?_, fun _ _ => ⟨rfl, rfl, by simp [hpres2], by simp [hpres1], rfl⟩⟩
      · intro hc; exact absurd hc (by simp)
      · intro hc; exact absurd hc (by simp)
      · intro _ hc; exact absurd hc (by simp)
      · intro _ hc; exact absurd hc (by simp)

/-- Witness for C3 at a concrete scenario: one product with stock 10, one
pending order for 2 units, stock decrement succeeds, sale insert fails —
no sale row and no status change are made. -/
theorem confirmarEntrega_three_steps_non_atomic_witness :
    (confirmarEntrega "o1" true (fun _ => false) true false "v1" "2024-01-02T09:00:00"
      ⟨[], []⟩
      ⟨[⟨"p1", "111", "X", 5, 10, none, ""⟩],
       [⟨"o1", "2024-01-01T10:00:00", "Jon", [⟨"p1", "X", 2, 5⟩], 10, "efectivo", "15 min", "pendiente"⟩],
       []⟩).2.2.1.ventas = [] ∧
    (confirmarEntrega "o1" true (fun _ => false) true false "v1" "2024-01-02T09:00:00"
      ⟨[], []⟩
      ⟨[⟨"p1", "111", "X", 5, 10, none, ""⟩],
       [⟨"o1", "2024-01-01T10:00:00", "Jon", [⟨"p1", "X", 2, 5⟩], 10, "efectivo", "15 min", "pendiente"⟩],
       []⟩).2.2.1.pedidos =
      [⟨"o1", "2024-01-01T10:00:00", "Jon", [⟨"p1", "X", 2, 5⟩], 10, "efectivo", "15 min", "pendiente"⟩] :=
  ((confirmarEntrega_three_steps_non_atomic "o1" "v1" "2024-01-02T09:00:00"
    (fun _ => false) true false ⟨[], []⟩
    ⟨[⟨"p1", "111", "X", 5, 10, none, ""⟩],
     [⟨"o1", "2024-01-01T10:00:00", "Jon", [⟨"p1", "X", 2, 5⟩], 10, "efectivo", "15 min", "pendiente"⟩],
     []⟩
    ⟨"o1", "2024-01-01T10:00:00", "Jon", [⟨"p1", "X", 2, 5⟩], 10, "efectivo", "15 min", "pendiente"⟩
    rfl rfl).2.1 rfl)

/-! ## C8: order status one-way invariant -/

theorem applyChange_pedidos (r : RemoteDB) (c : PendingChange) :
    (applyChange r c).pedidos = r.pedidos := by
  unfold applyChange
  split_ifs <;> cases c.data <;> rfl

theorem foldl_applyChange_pedidos (fails : Nat → Bool) :
    ∀ (l : List (Nat × PendingChange)) (r : RemoteDB),
      (l.foldl (fun acc ic => if fails ic.1 then acc else applyChange acc ic.2) r).pedidos =
        r.pedidos := by
  intro l
  induction l with
  | nil => intro r; rfl
  | cons a l ih =>
    intro r
    simp only [List.foldl_cons]
    by_cases h : fails a.1
    · rw [if_pos h]; exact ih r
    · rw [if_neg h, ih, applyChange_pedidos]

theorem syncPendingChanges_pedidos (fails : Nat → Bool) (loc : LocalStore)
    (remote : RemoteDB) :
    (syncPendingChanges true fails loc remote).2.pedidos = remote.pedidos := by
  unfold syncPendingChanges
  split_ifs with h0 h1
  · rfl
  · exact foldl_applyChange_pedidos fails loc.pending.enum remote
  · rfl

theorem confirmarEntrega_pedidos_shape (pedidoId : String) (confirmOk : Bool)
    (failAt : Nat → Bool) (failVenta failEstado : Bool) (ventaId nowIso : String)
    (loc : LocalStore) (remote : RemoteDB) :
    (confirmarEntrega pedidoId confirmOk failAt failVenta failEstado
        ventaId nowIso loc remote).2.2.1.pedidos = remote.pedidos ∨
    ∃ pid, (confirmarEntrega pedidoId confirmOk failAt failVenta failEstado
        ventaId nowIso loc remote).2.2.1.pedidos =
      remote.pedidos.map (fun p => if p.id = pid then { p with estado := "completado" } else p) := by
  simp only [confirmarEntrega]
  cases hfind : (getPedidosPendientes true false remote.pedidos).find?
      (fun p => p.id = pedidoId) with
  | none => left; rfl
  | some pedido =>
    dsimp only
    cases confirmOk with
    | false => left; rfl
    | true =>
      have hpres := updateMultipleStockGo_preserves failAt
        (pedido.productos.map (fun item => StockUpdate.mk item.id item.cantidad)) 0 loc remote []
      rcases hs : updateMultipleStock true failAt
          (pedido.productos.map (fun item => StockUpdate.mk item.id item.cantidad))
          loc remote with ⟨e, l1, r1, t1⟩
      have hs2 : updateMultipleStockGo failAt 0
          (pedido.productos.map (fun item => StockUpdate.mk item.id item.cantidad))
          loc remote [] = (e, l1, r1, t1) := hs
      rw [hs2] at hpres
      have hr1 : r1.pedidos = remote.pedidos := hpres.1
      rw [hs]
      cases e with
      | error msg => left; exact hr1
      | ok b =>
        cases failVenta with
        | true =>
          left
          simp only [createVenta]
          simpa using hr1
        | false =>
          cases failEstado with
          | true =>
            left
            simp only [createVenta, updatePedidoEstado]
            simpa using hr1
          | false =>
            right
            refine ⟨pedido.id, ?_⟩
            simp [createVenta, updatePedidoEstado, hr1]

theorem sysStep_pedidos_shape {st st' : RemoteDB} (h : SysStep st st') :
    st'.pedidos = st.pedidos ∨
    (∃ row : PedidoRow, st'.pedidos = st.pedidos ++ [row] ∧ row.estado = "pendiente") ∨
    (∃ pid, st'.pedidos =
      st.pedidos.map (fun p => if p.id = pid then { p with estado := "completado" } else p)) := by
  cases h with
  | addProductoStep remoteFail serverId now nowIso input loc remote =>
    cases remoteFail <;> left <;> rfl
  | updateStockStep remoteFail now id n loc remote =>
    cases remoteFail <;> left <;> rfl
  | createPedidoStep remoteFail serverId nowIso pedido loc remote =>
    cases remoteFail
    · right; left; exact ⟨_, rfl, rfl⟩
    · left; rfl
  | createVentaStep remoteFail serverId nowIso venta loc remote =>
    cases remoteFail <;> left <;> rfl
  | updateMultipleStockStep failAt updates loc =>
    left; exact (updateMultipleStockGo_preserves failAt updates 0 loc st []).1
  | confirmarEntregaStep pedidoId confirmOk failAt failVenta failEstado ventaId nowIso loc =>
    rcases confirmarEntrega_pedidos_shape pedidoId confirmOk failAt failVenta failEstado
        ventaId nowIso loc st with hsh | ⟨pid, hsh⟩
    · left; exact hsh
    · right; right; exact ⟨pid, hsh⟩
  | syncStep fails loc =>
    left; exact syncPendingChanges_pedidos fails loc st

theorem sysStep_preserves_nonpending {st st' : RemoteDB} (h : SysStep st st') (id : String)
    (p : PedidoRow) (hfind : st.pedidos.find? (fun q => q.id = id) = some p)
    (hne : p.estado ≠ "pendiente") :
    ∃ p', st'.pedidos.find? (fun q => q.id = id) = some p' ∧ p'.estado ≠ "pendiente" := by
  rcases sysStep_pedidos_shape h with heq | ⟨row, heq, _⟩ | ⟨pid, heq⟩
  · exact ⟨p, by rw [heq, hfind], hne⟩
  · refine ⟨p, ?_, hne⟩
    rw [heq, List.find?_append, hfind]
    rfl
  · rw [heq, List.find?_map]
    have hfun : ((fun q : PedidoRow => decide (q.id = id)) ∘
        (fun q => if q.id = pid then { q with estado := "completado" } else q)) =
        (fun q : PedidoRow => decide (q.id = id)) := by
      funext q
      by_cases hq : q.id = pid <;> simp [hq]
    rw [hfun, hfind]
    refine ⟨_, rfl, ?_⟩
    by_cases hp : p.id = pid
    · simp [hp]
    · simp only [hp, if_neg, if_false]
      exact hne

/-- C8: every order row is created with estado `pendiente`, and across every
reachable sequence of system operations (product insert and stock updates,
order and sale creation, multi-stock update, order fulfillment, queue
replay), an order whose estado is no longer `pendiente` never returns to
`pendiente`. -/
theorem pedido_estado_one_way :
    (∀ (serverId nowIso : String) (pedido : Pedido) (loc : LocalStore) (remote : RemoteDB),
      ∃ row : PedidoRow,
        (createPedido true false serverId nowIso pedido loc remote).2.2.pedidos =
          remote.pedidos ++ [row] ∧ row.estado = "pendiente") ∧
    (∀ st st' : RemoteDB, Relation.ReflTransGen SysStep st st' →
      ∀ (id : String) (p : PedidoRow),
        st.pedidos.find? (fun q => q.id = id) = some p → p.estado ≠ "pendiente" →
        ∃ p', st'.pedidos.find? (fun q => q.id = id) = some p' ∧
          p'.estado ≠ "pendiente") := by
  constructor
  · intro serverId nowIso pedido loc remote
    exact ⟨_, rfl, rfl⟩
  · intro st st' h
    induction h with
    | refl => intro id p hf hne; exact ⟨p, hf, hne⟩
    | tail hsteps hstep ih =>
      intro id p hf hne
      obtain ⟨p', hf', hne'⟩ := ih id p hf hne
      exact sysStep_preserves_nonpending hstep id p' hf' hne'

/-- Witness for C8: a completed order stays non-pending across a concrete
system step (a new order being created). -/
theorem pedido_estado_one_way_witness :
    ∃ p', (createPedido true false "o2" "2024-01-02T00:00:00"
        ⟨"Ana", [], 5, "efectivo", "15 min"⟩ ⟨[], []⟩
        ⟨[], [⟨"o1", "t", "Jon", [], 10, "efectivo", "15", "completado"⟩], []⟩).2.2.pedidos.find?
        (fun q => q.id = "o1") = some p' ∧ p'.estado ≠ "pendiente" :=
  pedido_estado_one_way.2
    ⟨[], [⟨"o1", "t", "Jon", [], 10, "efectivo", "15", "completado"⟩], []⟩ _
    (Relation.ReflTransGen.single
      (SysStep.createPedidoStep false "o2" "2024-01-02T00:00:00"
        ⟨"Ana", [], 5, "efectivo", "15 min"⟩ ⟨[], []⟩
        ⟨[], [⟨"o1", "t", "Jon", [], 10, "efectivo", "15", "completado"⟩], []⟩))
    "o1" ⟨"o1", "t", "Jon", [], 10, "efectivo", "15", "completado"⟩ rfl (by decide)

/-! ## C6: barcode burst classification -/

theorem str_empty_append (s : String) : "" ++ s = s := by
  cases s with
  | mk data => rfl

theorem processEvents_append (cfg : ScannerConfig) (l1 l2 : List KeyEvent) :
    ∀ st : ScannerState, processEvents cfg st (l1 ++ l2) =
      ((processEvents cfg (processEvents cfg st l1).1 l2).1,
       (processEvents cfg st l1).2 ++ (processEvents cfg (processEvents cfg st l1).1 l2).2) := by
  induction l1 with
  | nil => intro st; simp [processEvents]
  | cons ev evs ih =>
    intro st
    simp only [List.cons_append, processEvents, List.append_eq]
    rw [ih ((handleKeyPress cfg st ev).1)]
    simp [List.append_assoc]

/-- One burst keystroke from a state with an armed timer: with the gap below
the max interval (itself at most the clear timeout), the key is appended,
nothing emitted. -/
theorem handleKeyPress_burst_step (cfg : ScannerConfig)
    (hcfg : cfg.maxTimeBetweenChars ≤ cfg.bufferClearTimeout)
    (buf : String) (lastT : Nat) (b : Bool) (ev : KeyEvent)
    (hk : ev.key ≠ "Enter") (hnb : notBlocked ev)
    (hgap : ev.time - lastT < cfg.maxTimeBetweenChars) :
    handleKeyPress cfg ⟨buf, lastT, b, true⟩ ev =
      (⟨buf ++ ev.key, ev.time,
        if ev.time - lastT < cfg.maxTimeBetweenChars ∧ (buf ++ ev.key).length ≠ 0 then true
        else b, true⟩, []) := by
  unfold handleKeyPress
  rw [if_neg hnb]
  have ht : ¬ ((⟨buf, lastT, b, true⟩ : ScannerState).timerArmed ∧
      cfg.bufferClearTimeout < ev.time - (⟨buf, lastT, b, true⟩ : ScannerState).lastKeyTime) := by
    intro hc
    exact absurd hc.2 (by dsimp only; omega)
  rw [if_neg ht]
  rw [if_neg hk]
  have hcl : ¬ (cfg.maxTimeBetweenChars <
      ev.time - (⟨buf, lastT, b, true⟩ : ScannerState).lastKeyTime ∧
      (⟨buf, lastT, b, true⟩ : ScannerState).buffer.length ≠ 0) := by
    intro hc
    exact absurd hc.1 (by dsimp only; omega)
  rw [if_neg hcl]

/-- The first burst keystroke from the constructor state: the timer is not
armed and the buffer is empty, so the key is appended whatever the elapsed
time. -/
theorem handleKeyPress_first_step (cfg : ScannerConfig) (ev : KeyEvent)
    (hk : ev.key ≠ "Enter") (hnb : notBlocked ev) :
    handleKeyPress cfg initScanner ev =
      (⟨ev.key, ev.time,
        if ev.time < cfg.maxTimeBetweenChars ∧ ev.key.length ≠ 0 then true else false,
        true⟩, []) := by
  unfold handleKeyPress initScanner
  rw [if_neg hnb]
  have ht : ¬ ((⟨"", 0, false, false⟩ : ScannerState).timerArmed ∧
      cfg.bufferClearTimeout < ev.time - (⟨"", 0, false, false⟩ : ScannerState).lastKeyTime) := by
    intro hc
    exact absurd hc.1 (by dsimp only; simp)
  rw [if_neg ht]
  rw [if_neg hk]
  have hcl : ¬ (cfg.maxTimeBetweenChars <
      ev.time - (⟨"", 0, false, false⟩ : ScannerState).lastKeyTime ∧
      (⟨"", 0, false, false⟩ : ScannerState).buffer.length ≠ 0) := by
    intro hc
    exact absurd hc.2 (by dsimp only; simp)
  rw [if_neg hcl]
  simp only [str_empty_append]
  rfl

/-- Handling Enter at the end of a fast burst: the pending timer has not
expired, the buffer has reached the minimum length, so exactly the trimmed
buffer is emitted and the state is cleared. -/
theorem handleKeyPress_enter_emit (cfg : ScannerConfig) (buf : String) (lastT : Nat)
    (b : Bool) (ev : KeyEvent) (hek : ev.key = "Enter") (hnb : notBlocked ev)
    (hgap : ev.time - lastT < cfg.maxTimeBetweenChars)
    (hcfg : cfg.maxTimeBetweenChars ≤ cfg.bufferClearTimeout)
    (hlen : cfg.minBarcodeLength ≤ buf.length) :
    handleKeyPress cfg ⟨buf, lastT, b, true⟩ ev = (⟨"", 0, false, true⟩, [jsTrim buf]) := by
  unfold handleKeyPress
  rw [if_neg hnb]
  have ht : ¬ ((⟨buf, lastT, b, true⟩ : ScannerState).timerArmed ∧
      cfg.bufferClearTimeout < ev.time - (⟨buf, lastT, b, true⟩ : ScannerState).lastKeyTime) := by
    intro hc
    exact absurd hc.2 (by dsimp only; omega)
  rw [if_neg ht]
  rw [if_pos hek]
  rw [if_pos (show cfg.minBarcodeLength ≤
    (⟨buf, lastT, b, true⟩ : ScannerState).buffer.length from hlen)]
  rfl

theorem processEvents_burst (cfg : ScannerConfig)
    (hcfg : cfg.maxTimeBetweenChars ≤ cfg.bufferClearTimeout) :
    ∀ (evs : List KeyEvent) (buf : String) (lastT : Nat) (b : Bool),
      (∀ ev ∈ evs, ev.key ≠ "Enter" ∧ notBlocked ev) →
      fastGaps cfg lastT evs →
      ∃ b', processEvents cfg ⟨buf, lastT, b, true⟩ evs =
        (⟨buf ++ joinKeys evs, lastTimeOf lastT evs, b', true⟩, []) := by
  intro evs
  induction evs with
  | nil =>
    intro buf lastT b _ _
    exact ⟨b, by simp [processEvents, joinKeys, lastTimeOf]⟩
  | cons ev evs ih =>
    intro buf lastT b hkeys hgaps
    rcases hgaps with ⟨hmono, hgap, hrest⟩
    obtain ⟨hk, hnb⟩ := hkeys ev (List.mem_cons_self _ _)
    have hstep := handleKeyPress_burst_step cfg hcfg buf lastT b ev hk hnb hgap
    obtain ⟨b', hrow⟩ := ih (buf ++ ev.key) ev.time
      (if ev.time - lastT < cfg.maxTimeBetweenChars ∧ (buf ++ ev.key).length ≠ 0 then true
       else b)
      (fun e he => hkeys e (List.mem_cons_of_mem _ he)) hrest
    refine ⟨b', ?_⟩
    simp only [processEvents, hstep, hrow, joinKeys, lastTimeOf, List.nil_append]
    rw [String.append_assoc]

/-- C6: (1) a keystroke burst whose inter-key gaps are all below the
max-interval threshold (itself at most the buffer-clear timeout), followed
by an Enter at which the accumulated buffer reaches the minimum barcode
length, emits exactly one scanned-code event carrying the trimmed
concatenation of the keys, and leaves the buffer cleared and the is-scanning
flag reset; (2) in all cases, handling an Enter leaves the buffer empty and
the is-scanning flag false. -/
theorem barcode_burst_emits_once :
    (∀ (cfg : ScannerConfig) (k0 : KeyEvent) (evs : List KeyEvent) (enter : KeyEvent),
      cfg.maxTimeBetweenChars ≤ cfg.bufferClearTimeout →
      (∀ ev ∈ k0 :: evs, ev.key ≠ "Enter" ∧ notBlocked ev) →
      fastGaps cfg k0.time evs →
      enter.key = "Enter" → notBlocked enter →
      enter.time - lastTimeOf k0.time evs < cfg.maxTimeBetweenChars →
      cfg.minBarcodeLength ≤ (joinKeys (k0 :: evs)).length →
      processEvents cfg initScanner (k0 :: evs ++ [enter]) =
        (⟨"", 0, false, true⟩, [jsTrim (joinKeys (k0 :: evs))])) ∧
    (∀ (cfg : ScannerConfig) (st : ScannerState) (ev : KeyEvent),
      ev.key = "Enter" → notBlocked ev →
      (handleKeyPress cfg st ev).1.buffer = "" ∧
      (handleKeyPress cfg st ev).1.isScanning = false) := by
  constructor
  · intro cfg k0 evs enter hcfg hkeys hgaps hek hen hgap hlen
    obtain ⟨hk0, hnb0⟩ := hkeys k0 (List.mem_cons_self _ _)
    have h1 := handleKeyPress_first_step cfg k0 hk0 hnb0
    obtain ⟨b', hburst⟩ := processEvents_burst cfg hcfg evs k0.key k0.time
      (if k0.time < cfg.maxTimeBetweenChars ∧ k0.key.length ≠ 0 then true else false)
      (fun e he => hkeys e (List.mem_cons_of_mem _ he)) hgaps
    have hlen2 : cfg.minBarcodeLength ≤ (k0.key ++ joinKeys evs).length := by
      rw [show joinKeys (k0 :: evs) = k0.key ++ joinKeys evs from rfl] at hlen
      exact hlen
    have henter := handleKeyPress_enter_emit cfg (k0.key ++ joinKeys evs)
      (lastTimeOf k0.time evs) b' enter hek hen hgap hcfg hlen2
    show processEvents cfg initScanner (k0 :: (evs ++ [enter])) = _
    simp only [processEvents, h1]
    rw [processEvents_append cfg evs [enter]]
    rw [hburst]
    simp only [processEvents, henter]
    rw [show joinKeys (k0 :: evs) = k0.key ++ joinKeys evs from rfl]
    simp
  · intro cfg st ev hek hnb
    unfold handleKeyPress
    rw [if_neg hnb]
    constructor <;> (rw [if_pos hek]; split_ifs <;> rfl)

/-- Witness for C6: a three-key burst at 10ms gaps followed by Enter, with
minimum length 3, max interval 50 and clear timeout 100, emits exactly the
code "123". -/
theorem barcode_burst_emits_once_witness :
    processEvents ⟨3, 50, 100⟩ initScanner
      [⟨"1", 10, false, false⟩, ⟨"2", 20, false, false⟩, ⟨"3", 30, false, false⟩,
       ⟨"Enter", 40, false, false⟩] =
      (⟨"", 0, false, true⟩,
       [jsTrim (joinKeys [⟨"1", 10, false, false⟩, ⟨"2", 20, false, false⟩,
         ⟨"3", 30, false, false⟩])]) :=
  barcode_burst_emits_once.1 ⟨3, 50, 100⟩ ⟨"1", 10, false, false⟩
    [⟨"2", 20, false, false⟩, ⟨"3", 30, false, false⟩] ⟨"Enter", 40, false, false⟩
    (by decide)
    (by
      intro ev hev
      simp only [List.mem_cons, List.not_mem_nil, or_false] at hev
      rcases hev with rfl | rfl | rfl <;>
        exact ⟨by decide, fun hc => absurd hc.1 (by decide)⟩)
    ⟨by decide, by decide, by decide, by decide, trivial⟩
    rfl
    (fun hc => absurd hc.1 (by decide))
    (by decide)
    (by decide)

/-! ## C5: reporting aggregation -/

/-- C5 counterexample: the remote range filter's upper bound is the literal
`T23:59:59`, so a sale created at 23:59:59.500 on the last day of the range
— within the day by the claim's "start of the first day through end of the
last day" — is excluded: the report comes back with no groups at all. -/
theorem getVentasPorDia_end_of_day_counterexample :
    getVentasPorDia true false "2024-01-01" "2024-01-02"
      [⟨"v1", "2024-01-02T23:59:59.500", none, 30, "efectivo", []⟩] = .ok [] ∧
    strLeB "2024-01-01" (datePart "2024-01-02T23:59:59.500") = true ∧
    strLeB (datePart "2024-01-02T23:59:59.500") "2024-01-02" = true :=
  ⟨rfl, by decide, by decide⟩

theorem updateFirstBy_eq_map_of_unique {α : Type} (p : α → Bool) (f : α → α)
    (l : List α) (huniq : l.Pairwise (fun a b => p a = true → p b = false)) :
    updateFirstBy p f l = l.map (fun a => if p a then f a else a) := by
  induction l with
  | nil => rfl
  | cons a l ih =>
    rcases List.pairwise_cons.mp huniq with ⟨ha, hl⟩
    by_cases hpa : p a
    · simp only [updateFirstBy, List.map]
      rw [if_pos hpa, if_pos hpa]
      have hrest : l.map (fun a => if p a then f a else a) = l.map id := by
        refine List.map_congr_left ?_
        intro x hx
        rw [if_neg (by simp [ha x hx hpa])]
        rfl
      rw [hrest, List.map_id]
    · simp only [updateFirstBy, List.map]
      rw [if_neg hpa, if_neg hpa, ih hl]

/-- Invariant of the JS grouping loop of `getVentasPorDia` relative to the
prefix of sales already processed. -/
def groupsInv (processed : List VentaRow) (acc : List DiaVentas) : Prop :=
  acc.Pairwise (fun d e => d.fecha ≠ e.fecha) ∧
  (∀ d ∈ acc, d.ventas = processed.filter (fun v => datePart v.created_at = d.fecha) ∧
    d.total = (d.ventas.map (fun v => v.total)).sum ∧
    d.cantidad = d.ventas.length) ∧
  (∀ v ∈ processed, ∃ d ∈ acc, d.fecha = datePart v.created_at)

theorem addDia_fecha (v : VentaRow) (c : DiaVentas) :
    (if decide (c.fecha = datePart v.created_at) = true then { c with total := c.total + v.total, cantidad := c.cantidad + 1, ventas := c.ventas ++ [v] } else c).fecha = c.fecha := by
  by_cases hc : c.fecha = datePart v.created_at <;> simp [hc]

theorem groupsInv_step (processed : List VentaRow) (acc : List DiaVentas) (v : VentaRow)
    (h : groupsInv processed acc) : groupsInv (processed ++ [v]) (addVentaToDia acc v) := by
  obtain ⟨hdist, hprops, hcover⟩ := h
  unfold addVentaToDia
  by_cases hany : acc.any (fun d => d.fecha = datePart v.created_at)
  · rw [if_pos hany]
    have huniq : acc.Pairwise (fun a b =>
        (decide (a.fecha = datePart v.created_at)) = true →
        (decide (b.fecha = datePart v.created_at)) = false) := by
      refine hdist.imp ?_
      intro a b hab
      intro haeq
      simp only [decide_eq_true_eq] at haeq
      simp only [decide_eq_false_iff_not]
      intro hbeq
      exact hab (haeq.trans hbeq.symm)
    rw [updateFirstBy_eq_map_of_unique _ _ _ huniq]
    refine ⟨?_, ?_, ?_⟩
    · rw [List.pairwise_map]
      refine hdist.imp ?_
      intro a b hab
      rw [addDia_fecha v a, addDia_fecha v b]
      exact hab
    · intro d hd
      rcases List.mem_map.mp hd with ⟨a, ha, rfl⟩
      have hpa := hprops a ha
      by_cases hpaeq : a.fecha = datePart v.created_at
      · rw [if_pos (by simpa using hpaeq)]
        refine ⟨?_, ?_, ?_⟩
        · show a.ventas ++ [v] = _
          rw [List.filter_append, hpa.1]
          have : [v].filter (fun w => datePart w.created_at = a.fecha) = [v] := by
            simp [hpaeq]
          rw [this]
        · show a.total + v.total = _
          rw [hpa.2.1]
          simp
        · show a.cantidad + 1 = _
          rw [hpa.2.2]
          simp
      · rw [if_neg (by simpa using hpaeq)]
        refine ⟨?_, hpa.2.1, hpa.2.2⟩
        rw [List.filter_append, hpa.1]
        have : [v].filter (fun w => datePart w.created_at = a.fecha) = [] := by
          simp
          intro hc
          exact hpaeq hc.symm
        rw [this, List.append_nil]
    · intro w hw
      rcases List.mem_append.mp hw with hw | hw
      · obtain ⟨d, hd, hdf⟩ := hcover w hw
        refine ⟨_, List.mem_map_of_mem _ hd, ?_⟩
        rw [addDia_fecha v d]
        exact hdf
      · rw [List.mem_singleton.mp hw]
        obtain ⟨d0, hd0, hd0f⟩ := List.any_eq_true.mp hany
        simp only [decide_eq_true_eq] at hd0f
        refine ⟨_, List.mem_map_of_mem _ hd0, ?_⟩
        rw [addDia_fecha v d0]
        exact hd0f
  · rw [if_neg hany]
    have hnone : ∀ d ∈ acc, d.fecha ≠ datePart v.created_at := by
      intro d hd hc
      exact hany (List.any_eq_true.mpr ⟨d, hd, by simp [hc]⟩)
    refine ⟨?_, ?_, ?_⟩
    · rw [List.pairwise_append]
      refine ⟨hdist, List.pairwise_singleton _ _, ?_⟩
      intro a ha b hb
      rw [List.mem_singleton.mp hb]
      exact hnone a ha
    · intro d hd
      rcases List.mem_append.mp hd with hd | hd
      · have hpa := hprops d hd
        refine ⟨?_, hpa.2.1, hpa.2.2⟩
        rw [List.filter_append, hpa.1]
        have : [v].filter (fun w => datePart w.created_at = d.fecha) = [] := by
          simp
          intro hc
          exact hnone d hd hc.symm
        rw [this, List.append_nil]
      · rw [List.mem_singleton.mp hd]
        refine ⟨?_, by simp, by simp⟩
        show [v] = _
        rw [List.filter_append]
        have h1 : processed.filter
            (fun w => datePart w.created_at = datePart v.created_at) = [] := by
          rw [List.filter_eq_nil_iff]
          intro w hw
          simp only [decide_eq_true_eq]
          intro hc
          obtain ⟨d, hd, hdf⟩ := hcover w hw
          exact hnone d hd (hdf.trans hc)
        have h2 : [v].filter
            (fun w => datePart w.created_at = datePart v.created_at) = [v] := by simp
        rw [h1, h2, List.nil_append]
    · intro w hw
      rcases List.mem_append.mp hw with hw | hw
      · obtain ⟨d, hd, hdf⟩ := hcover w hw
        exact ⟨d, List.mem_append_left _ hd, hdf⟩
      · rw [List.mem_singleton.mp hw]
        exact ⟨_, List.mem_append_right _ (List.mem_singleton_self _), rfl⟩

theorem groupsInv_foldl :
    ∀ (l processed : List VentaRow) (acc : List DiaVentas),
      groupsInv processed acc → groupsInv (processed ++ l) (l.foldl addVentaToDia acc) := by
  intro l
  induction l with
  | nil => intro processed acc h; simpa using h
  | cons v l ih =>
    intro processed acc h
    have h2 := ih (processed ++ [v]) _ (groupsInv_step processed acc v h)
    rw [List.append_assoc] at h2
    simpa using h2

/-- C5 amended: for the inclusive range `[desde, hasta]` with the upper
boundary at the literal `T23:59:59` (sub-second timestamps later in the last
day are excluded — that is the only deviation from the claim), the report
(1) has, for every group, exactly the kept sales of that calendar date with
the day total the sum of their totals and the count their number;
(2) covers every kept sale by a group of its date; (3) contains only kept
sales; the groups are (4) sorted by date descending and (5) pairwise
distinct by date; and (6) the claim's concrete example holds: sales of 100
and 50 on 2024-01-01 and 30 on 2024-01-02 yield
[2024-01-02 (total 30, count 1), 2024-01-01 (total 150, count 2)]. -/
theorem getVentasPorDia_grouping_amended (desde hasta : String) (tabla : List VentaRow)
    (res : List DiaVentas)
    (h : getVentasPorDia true false desde hasta tabla = .ok res) :
    (∀ d ∈ res,
      d.ventas = (sortDescBy (fun v => v.created_at)
          (tabla.filter (ventaInRange desde hasta))).filter
          (fun v => datePart v.created_at = d.fecha) ∧
      d.total = (d.ventas.map (fun v => v.total)).sum ∧
      d.cantidad = d.ventas.length) ∧
    (∀ v ∈ tabla, ventaInRange desde hasta v = true →
      ∃ d ∈ res, d.fecha = datePart v.created_at ∧ v ∈ d.ventas) ∧
    (∀ d ∈ res, ∀ v ∈ d.ventas, v ∈ tabla ∧ ventaInRange desde hasta v = true) ∧
    DescSorted (fun d => d.fecha) res ∧
    res.Pairwise (fun d e => d.fecha ≠ e.fecha) ∧
    getVentasPorDia true false "2024-01-01" "2024-01-02"
      [⟨"v3", "2024-01-02T09:00:00", none, 30, "efectivo", []⟩,
       ⟨"v2", "2024-01-01T12:00:00", none, 50, "efectivo", []⟩,
       ⟨"v1", "2024-01-01T10:00:00", none, 100, "efectivo", []⟩] =
      .ok [⟨"2024-01-02", 30, 1, [⟨"v3", "2024-01-02T09:00:00", none, 30, "efectivo", []⟩]⟩,
           ⟨"2024-01-01", 150, 2,
            [⟨"v2", "2024-01-01T12:00:00", none, 50, "efectivo", []⟩,
             ⟨"v1", "2024-01-01T10:00:00", none, 100, "efectivo", []⟩]⟩] := by
  have hres : res = sortDescBy (fun d => d.fecha)
      ((sortDescBy (fun v => v.created_at) (tabla.filter (ventaInRange desde hasta))).foldl
        addVentaToDia []) := (Except.ok.inj h).symm
  have hGI : groupsInv
      (sortDescBy (fun v => v.created_at) (tabla.filter (ventaInRange desde hasta)))
      ((sortDescBy (fun v => v.created_at) (tabla.filter (ventaInRange desde hasta))).foldl
        addVentaToDia []) := by
    have h0 : groupsInv [] [] :=
      ⟨List.Pairwise.nil, fun d hd => absurd hd (List.not_mem_nil d),
       fun v hv => absurd hv (List.not_mem_nil v)⟩
    have := groupsInv_foldl
      (sortDescBy (fun v => v.created_at) (tabla.filter (ventaInRange desde hasta))) [] [] h0
    simpa using this
  have hperm : res.Perm ((sortDescBy (fun v => v.created_at)
      (tabla.filter (ventaInRange desde hasta))).foldl addVentaToDia []) := by
    rw [hres]
    exact sortDescBy_perm _ _
  have hsortperm := sortDescBy_perm (fun v : VentaRow => v.created_at)
    (tabla.filter (ventaInRange desde hasta))
  refine ⟨?_, ?_, ?_, ?_, ?_, rfl⟩
  · intro d hd
    exact hGI.2.1 d (hperm.mem_iff.mp hd)
  · intro v hv hr
    have hkept : v ∈ tabla.filter (ventaInRange desde hasta) :=
      List.mem_filter.mpr ⟨hv, hr⟩
    have hsorted : v ∈ sortDescBy (fun v => v.created_at)
        (tabla.filter (ventaInRange desde hasta)) := hsortperm.mem_iff.mpr hkept
    obtain ⟨d, hd, hdf⟩ := hGI.2.2 v hsorted
    refine ⟨d, hperm.mem_iff.mpr hd, hdf, ?_⟩
    rw [(hGI.2.1 d hd).1]
    exact List.mem_filter.mpr ⟨hsorted, by simp [hdf.symm]⟩
  · intro d hd v hv
    have hd2 := hperm.mem_iff.mp hd
    rw [(hGI.2.1 d hd2).1] at hv
    have hsorted := List.mem_of_mem_filter hv
    have hkept := hsortperm.mem_iff.mp hsorted
    exact List.mem_filter.mp hkept
  · rw [hres]
    exact sortDescBy_sorted _ _
  · exact (hperm.pairwise_iff (fun hab hc => hab hc.symm)).mpr hGI.1

/-- Witness for C5 amended at the claim's example. -/
theorem getVentasPorDia_grouping_amended_witness :
    DescSorted (fun d => d.fecha)
      [(⟨"2024-01-02", 30, 1, [⟨"v3", "2024-01-02T09:00:00", none, 30, "efectivo", []⟩]⟩ : DiaVentas),
       ⟨"2024-01-01", 150, 2,
        [⟨"v2", "2024-01-01T12:00:00", none, 50, "efectivo", []⟩,
         ⟨"v1", "2024-01-01T10:00:00", none, 100, "efectivo", []⟩]⟩] :=
  (getVentasPorDia_grouping_amended "2024-01-01" "2024-01-02"
    [⟨"v3", "2024-01-02T09:00:00", none, 30, "efectivo", []⟩,
     ⟨"v2", "2024-01-01T12:00:00", none, 50, "efectivo", []⟩,
     ⟨"v1", "2024-01-01T10:00:00", none, 100, "efectivo", []⟩]
    [⟨"2024-01-02", 30, 1, [⟨"v3", "2024-01-02T09:00:00", none, 30, "efectivo", []⟩]⟩,
     ⟨"2024-01-01", 150, 2,
      [⟨"v2", "2024-01-01T12:00:00", none, 50, "efectivo", []⟩,
       ⟨"v1", "2024-01-01T10:00:00", none, 100, "efectivo", []⟩]⟩]
    rfl).2.2.2.1

end AuraStore
